import Mathlib

/-!
Verification of the statistical color-transfer core of `color_transfer.py`.

Channels of a decoded image are modelled as lists of real numbers (the
float32 arrays of the source), an image in the perceptual (LAB) space as a
triple of channels, and the reference statistics as a record of six reals.
Float arithmetic is modelled by exact real arithmetic; the single place
where the source can divide by zero (the unguarded non-adaptive rescale)
is modelled by an `Option` result, since a float division by a zero
standard deviation yields no finite value (inf, and then NaN after the
multiplication by the zero-centered channel).
-/

namespace ColorTransfer

/-- Arithmetic mean of a channel, as computed by `ndarray.mean()`. -/
noncomputable def meanR (l : List ℝ) : ℝ := l.sum / (l.length : ℝ)

/-- Population variance of a channel: the divisor is the full pixel count,
as in `ndarray.std()` with the default `ddof = 0`. -/
noncomputable def varR (l : List ℝ) : ℝ :=
  ((l.map (fun x => (x - meanR l) ^ 2)).sum) / (l.length : ℝ)

/-- Population standard deviation of a channel, `ndarray.std()`. -/
noncomputable def stdR (l : List ℝ) : ℝ := Real.sqrt (varR l)

/-- Elementwise clamp `np.clip(x, lo, hi)`. -/
noncomputable def clip (lo hi x : ℝ) : ℝ := min hi (max lo x)

/-- An image in the perceptual color space: channel 0 is lightness,
channels 1 and 2 are the two chroma axes, each value nominally in
[0, 255] (the 8-bit OpenCV LAB convention). -/
structure LabImage where
  l : List ℝ
  a : List ℝ
  b : List ℝ

/-- A valid perceptual image: every channel value lies in [0, 255]. -/
def validImage (img : LabImage) : Prop :=
  (∀ x ∈ img.l, 0 ≤ x ∧ x ≤ 255) ∧ (∀ x ∈ img.a, 0 ≤ x ∧ x ≤ 255) ∧
    (∀ x ∈ img.b, 0 ≤ x ∧ x ≤ 255)

/-- The `characteristics` dictionary produced by
`extract_reference_characteristics`: per-channel mean and standard
deviation of the reference image. -/
structure RefStats where
  l_mean : ℝ
  l_std : ℝ
  a_mean : ℝ
  a_std : ℝ
  b_mean : ℝ
  b_std : ℝ

/-- Embedding of `extract_reference_characteristics` (lines 37-52): the
statistics of the decoded reference image, each channel reduced by
`mean()` and `std()` over all pixels. The decode step itself (lines
27-35) is external I/O and is modelled at the `process_images` level as
an `Except` input. -/
noncomputable def extract_reference_characteristics (ref : LabImage) : RefStats :=
  { l_mean := meanR ref.l
    l_std := stdR ref.l
    a_mean := meanR ref.a
    a_std := stdR ref.a
    b_mean := meanR ref.b
    b_std := stdR ref.b }

/-- The per-pixel damping factor of the adaptive mode (lines 90-91):
`np.clip(1.0 - normalized * 0.5, 0.3, 1.0)`, applied to the normalized
(divided by 255) lightness value. -/
noncomputable def safetyFactor (normalized : ℝ) : ℝ :=
  clip 0.3 1.0 (1.0 - normalized * 0.5)

/-- Embedding of `normalize_exposure_luminance` (lines 55-108).
The source copies the image and rewrites only channel 0.  In the adaptive
branch the contrast rescale divides by `current_l_std` under the guard
`current_l_std > 0`, so the division always has a nonzero denominator.
In the non-adaptive branch (line 101) the division
`target_l_std / current_l_std` is unguarded: when `current_l_std` is 0
the float32 computation yields inf and then NaN for every pixel, which we
model as `none` (no finite result). -/
noncomputable def normalize_exposure_luminance (img_lab : LabImage)
    (target_l_mean target_l_std : ℝ) (adaptive : Bool) : Option LabImage :=
  let current_l := img_lab.l
  let current_l_mean := meanR current_l
  let current_l_std := stdR current_l
  if adaptive then
    let target_adjustment := target_l_mean - current_l_mean
    let shifted := current_l.map
      (fun v => v + target_adjustment * safetyFactor (v / 255.0))
    let adjusted_l :=
      if current_l_std > 0 then
        shifted.map (fun v =>
          (v - meanR shifted) * (target_l_std / current_l_std) + meanR shifted)
      else shifted
    some { img_lab with l := adjusted_l.map (clip 0 255) }
  else
    if current_l_std = 0 then none
    else
      let adjusted_l := current_l.map (fun v =>
        (v - current_l_mean) * (target_l_std / current_l_std) + target_l_mean)
      some { img_lab with l := adjusted_l.map (clip 0 255) }

/-- The hard-coded saturation preservation fraction (line 146). -/
noncomputable def saturation_preservation : ℝ := 0.8

/-- The strict Reinhard scale for the first chroma channel (line 142):
`a_std / (current_a_std + 1e-5)` with `a_std` taken from the reference statistics. -/
noncomputable def a_scale_strict (img : LabImage) (stats : RefStats) : ℝ :=
  stats.a_std / (stdR img.a + 1e-5)

/-- The strict Reinhard scale for the second chroma channel (line 143). -/
noncomputable def b_scale_strict (img : LabImage) (stats : RefStats) : ℝ :=
  stats.b_std / (stdR img.b + 1e-5)

/-- The blended scale for the first chroma channel (line 147). -/
noncomputable def a_scale (img : LabImage) (stats : RefStats) : ℝ :=
  a_scale_strict img stats * (1.0 - saturation_preservation) +
    1.0 * saturation_preservation

/-- The blended scale for the second chroma channel (line 148). -/
noncomputable def b_scale (img : LabImage) (stats : RefStats) : ℝ :=
  b_scale_strict img stats * (1.0 - saturation_preservation) +
    1.0 * saturation_preservation

/-- The chroma-transfer formula written per the words of the spec, with the
preservation fraction abstracted:
`scale = strictScale * (1 - preservation) + 1.0 * preservation` with
`strictScale = refStd / (currentStd + 1e-5)`.  Used to compare the
source scales against the spec for any preservation value. -/
noncomputable def chromaScale (refStd currentStd preservation : ℝ) : ℝ :=
  (refStd / (currentStd + 1e-5)) * (1 - preservation) + 1.0 * preservation

/-- Embedding of the chroma stage of `apply_color_transfer` (lines
134-159): statistics of the two chroma channels of the
luminance-normalized image, blended Reinhard scales, the per-channel
guarded remap (lines 151-155), then the unconditional clip of both chroma
channels (lines 158-159).  The lightness channel is not touched by this
stage.  Decode, the call to `normalize_exposure_luminance`, re-encode and
the file write (lines 115-167) are the I/O boundary around this core. -/
noncomputable def apply_color_transfer_chroma (img : LabImage)
    (stats : RefStats) : LabImage :=
  let current_a := img.a
  let current_b := img.b
  let current_a_mean := meanR current_a
  let current_a_std := stdR current_a
  let current_b_mean := meanR current_b
  let current_b_std := stdR current_b
  let a1 :=
    if current_a_std > 0 then
      current_a.map (fun v => (v - current_a_mean) * a_scale img stats + stats.a_mean)
    else current_a
  let b1 :=
    if current_b_std > 0 then
      current_b.map (fun v => (v - current_b_mean) * b_scale img stats + stats.b_mean)
    else current_b
  { l := img.l
    a := a1.map (clip 0 255)
    b := b1.map (clip 0 255) }

/-- Boolean success test for a per-target result. -/
def isOkB {E : Type} (r : Except E Unit) : Bool :=
  match r with
  | .ok _ => true
  | .error _ => false

/-- Embedding of the control flow of `process_images` (lines 170-210).
The reference analysis (line 191) is outside any handler: its failure
propagates and no target is processed, which we model by `reference_chars`
being an `Except` input whose error short-circuits the whole call.  Each
target is processed inside `try/except` (lines 202-205): its individual
outcome is captured and the loop continues, modelled by mapping the
per-target action over the whole list and collecting every `Except`
result. -/
def process_images {R T E : Type} (reference_chars : Except E R)
    (applyOne : R → T → Except E Unit) (target_paths : List T) :
    Except E (List (Except E Unit)) :=
  match reference_chars with
  | .error e => .error e
  | .ok stats => .ok (target_paths.map (fun t => applyOne stats t))

/-- Outcome of a run of `main`. -/
inductive MainOutcome (E : Type) where
  | missingReference : MainOutcome E
  | missingTarget : MainOutcome E
  | crashed : E → MainOutcome E
  | completed : List (Except E Unit) → MainOutcome E

/-- Embedding of `main` (lines 213-249) after successful argument parsing,
paired with the process exit status.  If the reference path does not exist
(line 239) the source prints an error and executes a plain `return`, so
the interpreter exits with status 0; likewise for a missing target path
(lines 243-246).  Otherwise `process_images` runs: an error escaping it
(a reference that exists but cannot be decoded) is an uncaught exception,
so the interpreter exits with a nonzero status (1); a completed batch
returns normally with status 0 regardless of per-target failures. -/
def main {R T E : Type} (refExists : Bool) (targetExists : T → Bool)
    (reference_chars : Except E R) (applyOne : R → T → Except E Unit)
    (targets : List T) : MainOutcome E × Nat :=
  if refExists = false then (.missingReference, 0)
  else if targets.any (fun t => targetExists t = false) then (.missingTarget, 0)
  else
    match process_images reference_chars applyOne targets with
    | .error e => (.crashed e, 1)
    | .ok rs => (.completed rs, 0)

/-- The adaptive contrast-rescale step as the claim words it: re-center on
the mean of the shifted channel, rescale by `targetStd` divided by the
standard deviation of the shifted channel itself (`newStd`), re-add the
mean, and skip the rescale exactly when that `newStd` is 0. -/
noncomputable def claimAdaptiveRescale (shifted : List ℝ) (target_l_std : ℝ) :
    List ℝ :=
  if stdR shifted = 0 then shifted
  else shifted.map (fun v =>
    (v - meanR shifted) * (target_l_std / stdR shifted) + meanR shifted)

/-- The full adaptive lightness pipeline as the claim describes it: damped
mean shift, then `claimAdaptiveRescale`, then clip. -/
noncomputable def claimAdaptivePipeline (l : List ℝ)
    (target_l_mean target_l_std : ℝ) : List ℝ :=
  let shifted := l.map
    (fun v => v + (target_l_mean - meanR l) * safetyFactor (v / 255.0))
  (claimAdaptiveRescale shifted target_l_std).map (clip 0 255)

/-- The adaptive lightness pipeline as the source actually computes it,
written out as a standalone description: the guard and the rescale
denominator are both the standard deviation of the ORIGINAL lightness
channel, not of the shifted channel. -/
noncomputable def amendedAdaptivePipeline (l : List ℝ)
    (target_l_mean target_l_std : ℝ) : List ℝ :=
  let shifted := l.map
    (fun v => v + (target_l_mean - meanR l) * safetyFactor (v / 255.0))
  let rescaled :=
    if stdR l = 0 then shifted
    else shifted.map (fun v =>
      (v - meanR shifted) * (target_l_std / stdR l) + meanR shifted)
  rescaled.map (clip 0 255)

/-! Helper lemmas about the statistics of concrete channels. -/

lemma meanR_pair (x y : ℝ) : meanR [x, y] = (x + y) / 2 := by
  simp [meanR]

lemma varR_pair (x y : ℝ) : varR [x, y] = ((x - y) / 2) ^ 2 := by
  simp [varR, meanR_pair]; ring

lemma stdR_pair (x y : ℝ) : stdR [x, y] = |x - y| / 2 := by
  rw [stdR, varR_pair, Real.sqrt_sq_eq_abs, abs_div]
  norm_num

lemma stdR_nonneg (l : List ℝ) : 0 ≤ stdR l := Real.sqrt_nonneg _

lemma clip_le (lo hi x : ℝ) : clip lo hi x ≤ hi := min_le_left _ _

lemma le_clip (lo hi x : ℝ) (h : lo ≤ hi) : lo ≤ clip lo hi x :=
  le_min h (le_max_left _ _)

lemma clip_eq_self (lo hi x : ℝ) (h1 : lo ≤ x) (h2 : x ≤ hi) :
    clip lo hi x = x := by
  rw [clip, max_eq_right h1, min_eq_right h2]

/-- C1: counterexample.  On the two-pixel lightness channel [0, 255] with
target mean 227.5 and target std 127.5, the adaptive branch of
`normalize_exposure_luminance` produces the lightness channel [100, 255],
while the pipeline the claim describes — guard and rescale denominator
taken from the standard deviation of the SHIFTED channel (`newStd`) —
produces [75, 255].  The code divides by the ORIGINAL channel standard
deviation (127.5 here), not by `newStd` (102.5 here), and its guard tests
the original standard deviation as well. -/
theorem C1_claim_counterexample :
    Option.map LabImage.l
        (normalize_exposure_luminance ⟨[0, 255], [], []⟩ (455/2) (255/2) true)
      = some [100, 255] ∧
    claimAdaptivePipeline [0, 255] (455/2) (255/2) = [75, 255] ∧
    Option.map LabImage.l
        (normalize_exposure_luminance ⟨[0, 255], [], []⟩ (455/2) (255/2) true)
      ≠ some (claimAdaptivePipeline [0, 255] (455/2) (255/2)) := by
  have hs0 : safetyFactor (0:ℝ) = 1 := by rw [safetyFactor, clip]; norm_num
  have hs1 : safetyFactor (1:ℝ) = 1/2 := by rw [safetyFactor, clip]; norm_num
  have hstd : stdR [(0:ℝ), 255] = 255/2 := by rw [stdR_pair]; norm_num
  have hstd2 : stdR [(100:ℝ), 305] = 205/2 := by rw [stdR_pair]; norm_num
  have h1 : normalize_exposure_luminance ⟨[0, 255], [], []⟩ (455/2) (255/2) true
      = some ⟨[100, 255], [], []⟩ := by
    simp only [normalize_exposure_luminance, hstd]
    norm_num [hs0, hs1, meanR_pair, clip]
  have h2 : claimAdaptivePipeline [0, 255] (455/2) (255/2) = [75, 255] := by
    norm_num [claimAdaptivePipeline, claimAdaptiveRescale, hs0, hs1, hstd2,
      meanR_pair, clip]
  refine ⟨by rw [h1]; rfl, h2, ?_⟩
  rw [h1, h2]
  simp only [Option.map_some, ne_eq, Option.some.injEq, List.cons.injEq]
  norm_num

/-- C1: amended claim.  In the adaptive mode the channel is re-centered on
the new mean of the shifted channel itself and the new mean is re-added, but the
rescale factor is `targetStd` divided by the standard deviation of the
ORIGINAL lightness channel (`currentStd`), not of the shifted channel, and
the rescale is skipped exactly when that original standard deviation is 0;
the divisor in the taken rescale branch is therefore nonzero, so no
division by zero occurs. -/
theorem C1_amended_adaptive_rescale (img_lab : LabImage)
    (target_l_mean target_l_std : ℝ) :
    normalize_exposure_luminance img_lab target_l_mean target_l_std true
      = some { img_lab with
          l := amendedAdaptivePipeline img_lab.l target_l_mean target_l_std } := by
  by_cases h : stdR img_lab.l = 0
  · simp [normalize_exposure_luminance, amendedAdaptivePipeline, h, lt_irrefl]
  · have hpos : stdR img_lab.l > 0 := lt_of_le_of_ne (stdR_nonneg _) (Ne.symm h)
    simp [normalize_exposure_luminance, amendedAdaptivePipeline, h, hpos]

/-- C2: the code, evaluated at the failing input.  For the perfectly flat
lightness channel [128, 128] the standard deviation is exactly 0, and the
non-adaptive branch of `normalize_exposure_luminance` reaches its division
`target_l_std / current_l_std` with that zero denominator: there is no
guard, the float computation yields no finite result (NaN on every pixel),
and the run is modelled as `none`.  The claim that the division-by-zero
branch is unreachable and the output NaN-free is therefore false of the
code. -/
theorem C2_flat_nonadaptive_divides_by_zero :
    stdR [(128:ℝ), 128] = 0 ∧
    normalize_exposure_luminance ⟨[128, 128], [5, 6], [7, 8]⟩ 150 40 false
      = none := by
  have hstd : stdR [(128:ℝ), 128] = 0 := by rw [stdR_pair]; norm_num
  exact ⟨hstd, by simp [normalize_exposure_luminance, hstd]⟩

/-- C6: in the adaptive mode the per-pixel damping factor applied to a
pixel of value `v` is exactly `clip 0.3 1.0 (1 - (v/255) * 0.5)`, it always
lies within [0.3, 1.0], and it is antitone in the normalized lightness:
`n1 < n2` implies the factor at `n2` is at most the factor at `n1`. -/
theorem C6_damping_factor :
    (∀ v : ℝ, safetyFactor (v / 255) = clip 0.3 1.0 (1.0 - v / 255 * 0.5)) ∧
    (∀ n : ℝ, 0.3 ≤ safetyFactor n ∧ safetyFactor n ≤ 1.0) ∧
    (∀ n1 n2 : ℝ, n1 < n2 → safetyFactor n2 ≤ safetyFactor n1) := by
  refine ⟨fun v => rfl,
    fun n => ⟨le_clip _ _ _ (by norm_num), clip_le _ _ _⟩, ?_⟩
  intro n1 n2 h
  unfold safetyFactor clip
  exact min_le_min le_rfl (max_le_max le_rfl (by linarith))

/-- C6: witness for the antitone part at the concrete pair 0 < 1. -/
theorem C6_damping_factor_witness :
    (0:ℝ) < 1 ∧ safetyFactor 1 ≤ safetyFactor 0 :=
  ⟨by norm_num, C6_damping_factor.2.2 0 1 (by norm_num)⟩

/-- C10: `normalize_exposure_luminance` rewrites only the lightness
channel: both chroma channels of the returned image are equal
element-for-element to those of the input image, for every target mean,
target std and adaptive flag; consequently the chroma means and standard
deviations that the chroma stage later computes are those of the input
image. -/
theorem C10_chroma_channels_unchanged (img_lab : LabImage)
    (target_l_mean target_l_std : ℝ) (adaptive : Bool) (out : LabImage)
    (h : normalize_exposure_luminance img_lab target_l_mean target_l_std
        adaptive = some out) :
    out.a = img_lab.a ∧ out.b = img_lab.b ∧
    meanR out.a = meanR img_lab.a ∧ stdR out.a = stdR img_lab.a ∧
    meanR out.b = meanR img_lab.b ∧ stdR out.b = stdR img_lab.b := by
  simp only [normalize_exposure_luminance] at h
  split_ifs at h
  all_goals first
    | exact Option.noConfusion h
    | (have h2 := Option.some.inj h
       subst h2
       exact ⟨rfl, rfl, rfl, rfl, rfl, rfl⟩)

/-- C10: witness at a concrete run of the adaptive mode. -/
theorem C10_chroma_channels_unchanged_witness :
    (normalize_exposure_luminance ⟨[0, 0], [3, 4], [5, 6]⟩ 100 7 true
      = some ⟨[100, 100], [3, 4], [5, 6]⟩) ∧
    (LabImage.mk [100, 100] [3, 4] [5, 6]).a
        = (LabImage.mk [0, 0] [3, 4] [5, 6]).a ∧
    (LabImage.mk [100, 100] [3, 4] [5, 6]).b
        = (LabImage.mk [0, 0] [3, 4] [5, 6]).b ∧
    meanR (LabImage.mk [100, 100] [3, 4] [5, 6]).a
        = meanR (LabImage.mk [0, 0] [3, 4] [5, 6]).a ∧
    stdR (LabImage.mk [100, 100] [3, 4] [5, 6]).a
        = stdR (LabImage.mk [0, 0] [3, 4] [5, 6]).a ∧
    meanR (LabImage.mk [100, 100] [3, 4] [5, 6]).b
        = meanR (LabImage.mk [0, 0] [3, 4] [5, 6]).b ∧
    stdR (LabImage.mk [100, 100] [3, 4] [5, 6]).b
        = stdR (LabImage.mk [0, 0] [3, 4] [5, 6]).b := by
  have hstd : stdR [(0:ℝ), 0] = 0 := by rw [stdR_pair]; norm_num
  have hs0 : safetyFactor (0:ℝ) = 1 := by rw [safetyFactor, clip]; norm_num
  have hrun : normalize_exposure_luminance ⟨[0, 0], [3, 4], [5, 6]⟩ 100 7 true
      = some ⟨[100, 100], [3, 4], [5, 6]⟩ := by
    simp only [normalize_exposure_luminance, hstd]
    norm_num [hs0, clip, meanR_pair]
  obtain ⟨h1, h2, h3, h4, h5, h6⟩ :=
    C10_chroma_channels_unchanged _ 100 7 true _ hrun
  exact ⟨hrun, h1, h2, h3, h4, h5, h6⟩

lemma mem_map_clip (l : List ℝ) :
    ∀ x ∈ l.map (clip 0 255), 0 ≤ x ∧ x ≤ 255 := by
  intro x hx
  obtain ⟨y, _, rfl⟩ := List.mem_map.1 hx
  exact ⟨le_clip _ _ _ (by norm_num), clip_le _ _ _⟩

lemma map_clip_eq_self (l : List ℝ) (h : ∀ x ∈ l, 0 ≤ x ∧ x ≤ 255) :
    l.map (clip 0 255) = l := by
  induction l with
  | nil => rfl
  | cons x xs ih =>
    have hx := h x (by simp)
    simp only [List.map_cons]
    rw [clip_eq_self _ _ _ hx.1 hx.2, ih (fun y hy => h y (by simp [hy]))]

/-- C3: range invariant.  For every valid input image (all channel values
in [0, 255]) and arbitrary reference statistics, every channel value of
the image returned by `normalize_exposure_luminance` (whenever it returns
one) and every channel value of the image returned by the chroma stage of
`apply_color_transfer` lies in [0, 255]. -/
theorem C3_range_invariant (img_lab : LabImage)
    (target_l_mean target_l_std : ℝ) (adaptive : Bool) (stats : RefStats)
    (h : validImage img_lab) :
    (∀ out, normalize_exposure_luminance img_lab target_l_mean target_l_std
        adaptive = some out → validImage out) ∧
    validImage (apply_color_transfer_chroma img_lab stats) := by
  constructor
  · intro out hout
    simp only [normalize_exposure_luminance] at hout
    split_ifs at hout
    all_goals first
      | exact Option.noConfusion hout
      | (have h2 := Option.some.inj hout
         subst h2
         exact ⟨mem_map_clip _, h.2.1, h.2.2⟩)
  · exact ⟨h.1, mem_map_clip _, mem_map_clip _⟩

/-- C3: witness at a concrete valid image and concrete statistics. -/
theorem C3_range_invariant_witness :
    validImage ⟨[0, 255], [10, 20], [30, 40]⟩ ∧
    ((∀ out, normalize_exposure_luminance ⟨[0, 255], [10, 20], [30, 40]⟩
        (455/2) (255/2) true = some out → validImage out) ∧
      validImage (apply_color_transfer_chroma ⟨[0, 255], [10, 20], [30, 40]⟩
        ⟨150, 40, 140, 10, 160, 15⟩)) := by
  have hv : validImage ⟨[0, 255], [10, 20], [30, 40]⟩ := by
    refine ⟨?_, ?_, ?_⟩ <;> norm_num [List.forall_mem_cons]
  exact ⟨hv, C3_range_invariant _ (455/2) (255/2) true _ hv⟩

/-- C4: the chroma stage treats each chroma channel independently: a
channel whose standard deviation is 0 is returned unchanged (it is not
shifted to the reference mean; the unconditional clip is the identity on a
valid channel), while a channel with positive standard deviation has every
pixel remapped to `(value - currentMean) * scale + refMean` and is then
clipped. -/
theorem C4_chroma_flat_policy (img_lab : LabImage) (stats : RefStats)
    (h : validImage img_lab) :
    (stdR img_lab.a = 0 →
      (apply_color_transfer_chroma img_lab stats).a = img_lab.a) ∧
    (stdR img_lab.a > 0 →
      (apply_color_transfer_chroma img_lab stats).a
        = (img_lab.a.map (fun v =>
            (v - meanR img_lab.a) * a_scale img_lab stats + stats.a_mean)).map
              (clip 0 255)) ∧
    (stdR img_lab.b = 0 →
      (apply_color_transfer_chroma img_lab stats).b = img_lab.b) ∧
    (stdR img_lab.b > 0 →
      (apply_color_transfer_chroma img_lab stats).b
        = (img_lab.b.map (fun v =>
            (v - meanR img_lab.b) * b_scale img_lab stats + stats.b_mean)).map
              (clip 0 255)) := by
  refine ⟨fun hz => ?_, fun hp => ?_, fun hz => ?_, fun hp => ?_⟩
  · simp only [apply_color_transfer_chroma]
    rw [if_neg (by rw [hz]; exact lt_irrefl 0)]
    exact map_clip_eq_self _ h.2.1
  · simp only [apply_color_transfer_chroma]
    rw [if_pos hp]
  · simp only [apply_color_transfer_chroma]
    rw [if_neg (by rw [hz]; exact lt_irrefl 0)]
    exact map_clip_eq_self _ h.2.2
  · simp only [apply_color_transfer_chroma]
    rw [if_pos hp]

/-- C4: witness at a concrete valid image whose first chroma channel is
flat and whose second has positive spread. -/
theorem C4_chroma_flat_policy_witness :
    validImage ⟨[1, 2], [7, 7], [10, 30]⟩ ∧
    ((stdR (LabImage.mk [1, 2] [7, 7] [10, 30]).a = 0 →
      (apply_color_transfer_chroma ⟨[1, 2], [7, 7], [10, 30]⟩
          ⟨150, 40, 140, 10, 160, 15⟩).a = [7, 7]) ∧
     (stdR (LabImage.mk [1, 2] [7, 7] [10, 30]).a > 0 →
      (apply_color_transfer_chroma ⟨[1, 2], [7, 7], [10, 30]⟩
          ⟨150, 40, 140, 10, 160, 15⟩).a
        = (([7, 7] : List ℝ).map (fun v =>
            (v - meanR [7, 7]) * a_scale ⟨[1, 2], [7, 7], [10, 30]⟩
              ⟨150, 40, 140, 10, 160, 15⟩ + 140)).map (clip 0 255)) ∧
     (stdR (LabImage.mk [1, 2] [7, 7] [10, 30]).b = 0 →
      (apply_color_transfer_chroma ⟨[1, 2], [7, 7], [10, 30]⟩
          ⟨150, 40, 140, 10, 160, 15⟩).b = [10, 30]) ∧
     (stdR (LabImage.mk [1, 2] [7, 7] [10, 30]).b > 0 →
      (apply_color_transfer_chroma ⟨[1, 2], [7, 7], [10, 30]⟩
          ⟨150, 40, 140, 10, 160, 15⟩).b
        = (([10, 30] : List ℝ).map (fun v =>
            (v - meanR [10, 30]) * b_scale ⟨[1, 2], [7, 7], [10, 30]⟩
              ⟨150, 40, 140, 10, 160, 15⟩ + 160)).map (clip 0 255))) := by
  have hv : validImage ⟨[1, 2], [7, 7], [10, 30]⟩ := by
    refine ⟨?_, ?_, ?_⟩ <;> norm_num [List.forall_mem_cons]
  exact ⟨hv, C4_chroma_flat_policy _ ⟨150, 40, 140, 10, 160, 15⟩ hv⟩

/-- C5: the scale applied to each chroma channel is the blend
`strictScale * (1 - preservation) + preservation` of the strict Reinhard
ratio `refStd / (currentStd + 1e-5)` with the identity, the preservation
fraction the source uses is 0.8, with preservation 1 the blend is exactly
1 regardless of the statistics, and with preservation 0 it is exactly the
strict Reinhard ratio. -/
theorem C5_saturation_scale :
    (∀ img_lab stats, a_scale img_lab stats
        = chromaScale stats.a_std (stdR img_lab.a) saturation_preservation ∧
      b_scale img_lab stats
        = chromaScale stats.b_std (stdR img_lab.b) saturation_preservation) ∧
    saturation_preservation = 0.8 ∧
    (∀ refStd currentStd : ℝ, chromaScale refStd currentStd 1 = 1) ∧
    (∀ refStd currentStd : ℝ,
      chromaScale refStd currentStd 0 = refStd / (currentStd + 1e-5)) := by
  refine ⟨fun img_lab stats => ⟨?_, ?_⟩, rfl, fun r s => ?_, fun r s => ?_⟩
  · rw [a_scale, a_scale_strict, chromaScale]; norm_num
  · rw [b_scale, b_scale_strict, chromaScale]; norm_num
  · rw [chromaScale]; norm_num
  · rw [chromaScale]; norm_num

lemma countP_add_countP_not {T : Type} (p : T → Bool) (ts : List T) :
    ts.countP p + ts.countP (fun t => !(p t)) = ts.length := by
  induction ts with
  | nil => rfl
  | cons t ts ih =>
    by_cases hp : p t <;>
      simp [List.countP_cons, hp, ← ih] <;> omega

/-- C7: batch control flow of `process_images`.  A failing reference
analysis short-circuits the whole call before any target is processed; a
successful one yields one captured per-target result for every target, so
with N targets of which exactly one fails the other N-1 are attempted and
succeed. -/
theorem C7_batch_resilience {R T E : Type} (reference_chars : Except E R)
    (applyOne : R → T → Except E Unit) (targets : List T) :
    (∀ e, reference_chars = .error e →
      process_images reference_chars applyOne targets = .error e) ∧
    (∀ stats, reference_chars = .ok stats →
      process_images reference_chars applyOne targets
          = .ok (targets.map (applyOne stats)) ∧
        (targets.map (applyOne stats)).length = targets.length ∧
        (targets.map (applyOne stats)).countP (fun r => isOkB r)
            + targets.countP (fun t => !(isOkB (applyOne stats t)))
          = targets.length ∧
        (targets.countP (fun t => !(isOkB (applyOne stats t))) = 1 →
          (targets.map (applyOne stats)).countP (fun r => isOkB r)
            = targets.length - 1)) := by
  constructor
  · intro e he; rw [he]; rfl
  · intro stats hs
    rw [hs]
    have hmap : (targets.map (applyOne stats)).countP (fun r => isOkB r)
        = targets.countP (fun t => isOkB (applyOne stats t)) := by
      rw [List.countP_map]; rfl
    have hsum := countP_add_countP_not (fun t => isOkB (applyOne stats t)) targets
    refine ⟨rfl, List.length_map _ _, by rw [hmap]; exact hsum, fun h1 => ?_⟩
    rw [hmap]
    omega

/-- C7: witness with three targets of which exactly the middle one fails. -/
theorem C7_batch_resilience_witness :
    ((Except.ok 0 : Except String ℕ) = .error "x" →
      process_images (Except.ok 0 : Except String ℕ)
        (fun _ t => if t = 1 then .error "bad" else .ok ()) [0, 1, 2]
        = .error "x") ∧
    ((Except.ok 0 : Except String ℕ) = .ok 0 ∧
      ([0, 1, 2].countP
          (fun t => !(isOkB ((fun (_ : ℕ) (t : ℕ) =>
            if t = 1 then (Except.error "bad" : Except String Unit)
            else .ok ()) 0 t))) = 1) ∧
      ([0, 1, 2].map ((fun (_ : ℕ) (t : ℕ) =>
          if t = 1 then (Except.error "bad" : Except String Unit)
          else .ok ()) 0)).countP (fun r => isOkB r) = 3 - 1) := by
  refine ⟨fun he => (C7_batch_resilience _ _ _).1 "x" he, rfl, by decide, ?_⟩
  exact ((C7_batch_resilience (Except.ok 0)
    (fun _ t => if t = 1 then .error "bad" else .ok ()) [0, 1, 2]).2 0
      rfl).2.2.2 (by decide)

/-- C8: counterexample.  When the reference path does not exist, `main`
prints an error and executes a plain `return`, so the process exits with
status 0 — not the nonzero status the claim asserts. -/
theorem C8_claim_counterexample :
    (main (R := ℕ) (T := ℕ) (E := String) false (fun _ => true)
      (.ok 0) (fun _ _ => .ok ()) [0]).2 = 0 ∧
    (main (R := ℕ) (T := ℕ) (E := String) false (fun _ => true)
      (.ok 0) (fun _ _ => .ok ()) [0]).1 = MainOutcome.missingReference := by
  exact ⟨rfl, rfl⟩

/-- C8: amended claim.  A missing reference path (and likewise a missing
target path) makes `main` return early with exit status 0; the exit status
is nonzero only when the reference analysis itself fails after the
existence checks pass (an unrecoverable setup error escaping as an
uncaught exception); and per-target failures never change the exit
status, which is 0 for every completed batch. -/
theorem C8_amended_exit_status {R T E : Type} (refExists : Bool)
    (targetExists : T → Bool) (reference_chars : Except E R)
    (applyOne : R → T → Except E Unit) (targets : List T) :
    (refExists = false →
      main refExists targetExists reference_chars applyOne targets
        = (MainOutcome.missingReference, 0)) ∧
    ((main refExists targetExists reference_chars applyOne targets).2 ≠ 0 →
      ∃ e, reference_chars = .error e) ∧
    (∀ stats, reference_chars = .ok stats →
      (main refExists targetExists reference_chars applyOne targets).2 = 0) := by
  refine ⟨fun h => by simp [main, h], ?_, ?_⟩
  · intro hne
    unfold main at hne
    split_ifs at hne
    · simp at hne
    · simp at hne
    · rcases hr : reference_chars with e | stats
      · exact ⟨e, rfl⟩
      · rw [hr] at hne
        simp [process_images] at hne
  · intro stats hs
    unfold main
    split_ifs
    · rfl
    · rfl
    · rw [hs]
      simp [process_images]

/-- C8: witness.  A run with a missing reference exits with status 0, and
a run whose single target fails still exits with status 0. -/
theorem C8_amended_exit_status_witness :
    (false = false →
      main (R := ℕ) (T := ℕ) (E := String) false (fun _ => true) (.ok 0)
        (fun _ _ => .ok ()) [0] = (MainOutcome.missingReference, 0)) ∧
    ((Except.ok 0 : Except String ℕ) = .ok 0 →
      (main (R := ℕ) (T := ℕ) (E := String) true (fun _ => true) (.ok 0)
        (fun _ _ => .error "write failed") [0]).2 = 0) := by
  constructor
  · exact fun h => (C8_amended_exit_status false (fun _ => true) (.ok 0)
      (fun _ _ => .ok ()) [0]).1 h
  · exact fun h => (C8_amended_exit_status true (fun _ => true) (.ok 0)
      (fun _ _ => .error "write failed") [0]).2.2 0 h

lemma sum_sq_nonneg (l : List ℝ) (m : ℝ) :
    0 ≤ (l.map (fun x => (x - m) ^ 2)).sum := by
  apply List.sum_nonneg
  intro x hx
  obtain ⟨y, _, rfl⟩ := List.mem_map.1 hx
  positivity

lemma sum_eq_zero_forall {l : List ℝ} (h : ∀ x ∈ l, 0 ≤ x)
    (hs : l.sum = 0) : ∀ x ∈ l, x = 0 := by
  induction l with
  | nil => intro x hx; cases hx
  | cons y ys ih =>
    have hy : 0 ≤ y := h y (by simp)
    have hys : 0 ≤ ys.sum := List.sum_nonneg (fun x hx => h x (by simp [hx]))
    rw [List.sum_cons] at hs
    intro x hx
    rcases List.mem_cons.1 hx with rfl | hx2
    · linarith
    · exact ih (fun z hz => h z (by simp [hz])) (by linarith) x hx2

lemma varR_nonneg (l : List ℝ) : 0 ≤ varR l :=
  div_nonneg (sum_sq_nonneg l (meanR l)) (Nat.cast_nonneg _)

lemma varR_eq_zero_iff {l : List ℝ} (hne : l ≠ []) :
    varR l = 0 ↔ ∀ x ∈ l, x = meanR l := by
  constructor
  · intro h x hx
    have hlen : (l.length : ℝ) ≠ 0 := by
      simpa using hne
    have hsum : (l.map (fun x => (x - meanR l) ^ 2)).sum = 0 := by
      rw [varR, div_eq_zero_iff] at h
      exact h.resolve_right hlen
    have hmem : ((x - meanR l) ^ 2) ∈ l.map (fun x => (x - meanR l) ^ 2) :=
      List.mem_map_of_mem _ hx
    have hzero := sum_eq_zero_forall
      (fun y hy => by
        obtain ⟨z, _, rfl⟩ := List.mem_map.1 hy
        positivity)
      hsum _ hmem
    have := sq_eq_zero_iff.1 hzero
    linarith
  · intro h
    rw [varR]
    have hz : ∀ y ∈ l.map (fun x => (x - meanR l) ^ 2), y = 0 := by
      intro y hy
      obtain ⟨x, hx, rfl⟩ := List.mem_map.1 hy
      simp [h x hx]
    rw [List.sum_eq_zero hz, zero_div]

lemma stdR_eq_zero_iff {l : List ℝ} (hne : l ≠ []) :
    stdR l = 0 ↔ ∀ x ∈ l, x = meanR l := by
  rw [stdR, Real.sqrt_eq_zero (varR_nonneg l), varR_eq_zero_iff hne]

/-- C9: `extract_reference_characteristics` returns, for each of the three
channels of the decoded reference, the exact arithmetic mean (the channel
sum divided by the full pixel count) and the exact population standard
deviation (its square is the mean squared deviation over all pixels);
every standard deviation is nonnegative and vanishes exactly on a
perfectly flat channel. -/
theorem C9_reference_statistics (ref : LabImage) (hl : ref.l ≠ [])
    (ha : ref.a ≠ []) (hb : ref.b ≠ []) :
    ((extract_reference_characteristics ref).l_mean
        = ref.l.sum / (ref.l.length : ℝ) ∧
      (extract_reference_characteristics ref).l_std ^ 2
        = ((ref.l.map (fun x => (x - meanR ref.l) ^ 2)).sum)
            / (ref.l.length : ℝ) ∧
      0 ≤ (extract_reference_characteristics ref).l_std ∧
      ((extract_reference_characteristics ref).l_std = 0 ↔
        ∀ x ∈ ref.l, x = meanR ref.l)) ∧
    ((extract_reference_characteristics ref).a_mean
        = ref.a.sum / (ref.a.length : ℝ) ∧
      (extract_reference_characteristics ref).a_std ^ 2
        = ((ref.a.map (fun x => (x - meanR ref.a) ^ 2)).sum)
            / (ref.a.length : ℝ) ∧
      0 ≤ (extract_reference_characteristics ref).a_std ∧
      ((extract_reference_characteristics ref).a_std = 0 ↔
        ∀ x ∈ ref.a, x = meanR ref.a)) ∧
    ((extract_reference_characteristics ref).b_mean
        = ref.b.sum / (ref.b.length : ℝ) ∧
      (extract_reference_characteristics ref).b_std ^ 2
        = ((ref.b.map (fun x => (x - meanR ref.b) ^ 2)).sum)
            / (ref.b.length : ℝ) ∧
      0 ≤ (extract_reference_characteristics ref).b_std ∧
      ((extract_reference_characteristics ref).b_std = 0 ↔
        ∀ x ∈ ref.b, x = meanR ref.b)) := by
  refine ⟨⟨rfl, ?_, Real.sqrt_nonneg _, stdR_eq_zero_iff hl⟩,
    ⟨rfl, ?_, Real.sqrt_nonneg _, stdR_eq_zero_iff ha⟩,
    ⟨rfl, ?_, Real.sqrt_nonneg _, stdR_eq_zero_iff hb⟩⟩ <;>
    exact Real.sq_sqrt (varR_nonneg _)

/-- C9: witness at a concrete reference image with one flat channel. -/
theorem C9_reference_statistics_witness :
    ([1, 3] : List ℝ) ≠ [] ∧ ([2, 2] : List ℝ) ≠ [] ∧
    ([0, 4] : List ℝ) ≠ [] ∧
    (((extract_reference_characteristics ⟨[1, 3], [2, 2], [0, 4]⟩).l_mean
        = ([1, 3] : List ℝ).sum / (([1, 3] : List ℝ).length : ℝ) ∧
      (extract_reference_characteristics ⟨[1, 3], [2, 2], [0, 4]⟩).l_std ^ 2
        = ((([1, 3] : List ℝ).map (fun x => (x - meanR [1, 3]) ^ 2)).sum)
            / (([1, 3] : List ℝ).length : ℝ) ∧
      0 ≤ (extract_reference_characteristics ⟨[1, 3], [2, 2], [0, 4]⟩).l_std ∧
      ((extract_reference_characteristics ⟨[1, 3], [2, 2], [0, 4]⟩).l_std = 0 ↔
        ∀ x ∈ ([1, 3] : List ℝ), x = meanR [1, 3])) ∧
    ((extract_reference_characteristics ⟨[1, 3], [2, 2], [0, 4]⟩).a_mean
        = ([2, 2] : List ℝ).sum / (([2, 2] : List ℝ).length : ℝ) ∧
      (extract_reference_characteristics ⟨[1, 3], [2, 2], [0, 4]⟩).a_std ^ 2
        = ((([2, 2] : List ℝ).map (fun x => (x - meanR [2, 2]) ^ 2)).sum)
            / (([2, 2] : List ℝ).length : ℝ) ∧
      0 ≤ (extract_reference_characteristics ⟨[1, 3], [2, 2], [0, 4]⟩).a_std ∧
      ((extract_reference_characteristics ⟨[1, 3], [2, 2], [0, 4]⟩).a_std = 0 ↔
        ∀ x ∈ ([2, 2] : List ℝ), x = meanR [2, 2])) ∧
    ((extract_reference_characteristics ⟨[1, 3], [2, 2], [0, 4]⟩).b_mean
        = ([0, 4] : List ℝ).sum / (([0, 4] : List ℝ).length : ℝ) ∧
      (extract_reference_characteristics ⟨[1, 3], [2, 2], [0, 4]⟩).b_std ^ 2
        = ((([0, 4] : List ℝ).map (fun x => (x - meanR [0, 4]) ^ 2)).sum)
            / (([0, 4] : List ℝ).length : ℝ) ∧
      0 ≤ (extract_reference_characteristics ⟨[1, 3], [2, 2], [0, 4]⟩).b_std ∧
      ((extract_reference_characteristics ⟨[1, 3], [2, 2], [0, 4]⟩).b_std = 0 ↔
        ∀ x ∈ ([0, 4] : List ℝ), x = meanR [0, 4]))) := by
  refine ⟨by simp, by simp, by simp, ?_⟩
  exact C9_reference_statistics ⟨[1, 3], [2, 2], [0, 4]⟩
    (by simp) (by simp) (by simp)

end ColorTransfer
